import Mathlib

set_option maxRecDepth 100000

/-!
Verification of the conversational-agent orchestrator core
(`chatbot_ai_system`): a shallow embedding in Lean 4 of the stream/persistence
behaviour of `ChatOrchestrator.run` (one-shot path), `AgenticEngine.execute`
(Plan + ReAct loop), the classifier response parsing, the tool registry
filters, the summarization scheduler, the MCP call cache key, the Redis
cache get/set pair and the Ollama provider's tool-call id handling.

External collaborators (the LLM provider, the tool subprocesses, the JSON
parser of the standard library, wall-clock readings) are modelled as input
oracles; everything the repository's own code computes is translated
directly from the Python source.
-/

namespace ChatbotAI

/-- Message roles, from `models/schemas.py` (`MessageRole`). -/
inductive Role where
  | system
  | user
  | assistant
  | tool
deriving DecidableEq, Repr

/-- A tool call as the orchestrator handles it: an opaque id and the function
name.  The function arguments are passed through, untouched, to the tool
execution oracle, so they are not tracked here. -/
structure MToolCall where
  id : String
  fname : String
deriving DecidableEq, Repr

/-- A chat message as appended to the working list / persisted, from
`models/schemas.py` (`ChatMessage`): role, textual content, optional tool
calls, optional `tool_call_id` back-reference. -/
structure Msg where
  role : Role
  content : String
  toolCalls : List MToolCall
  toolCallId : Option String
deriving DecidableEq, Repr

/-- A stream chunk, from `models/schemas.py` (`StreamChunk`): incremental
content, optional status text, terminal flag, tool-call fragments and
whether a usage record is attached.  The schema has no error field. -/
structure Chunk where
  content : String
  status : Option String
  done : Bool
  toolCalls : List MToolCall
  usage : Bool
deriving DecidableEq, Repr

/-- Status chunk as yielded by the orchestrator and the agentic engine:
`StreamChunk(content="", status=..., done=False)`. -/
def statusChunk (s : String) : Chunk := ⟨"", some s, false, [], false⟩

/-- Terminal content chunk `StreamChunk(content=..., done=True, usage=...)`. -/
def doneChunk (content : String) (usage : Bool) : Chunk :=
  ⟨content, none, true, [], usage⟩

/-! ### One-shot (SIMPLE) path of `ChatOrchestrator.run`, orchestrator.py 258-423 -/

/-- Inputs of the SIMPLE one-shot flow.  The provider stream, the best-effort
text parser `provider._try_parse_tool_calls`, the tool execution
(`registry.get_tool(name)` followed by `tool.run(**args)`, every raised
exception collapsed to its text) and the synthesis stream are oracles. -/
structure SimpleInput where
  toolsAvailable : Bool
  stream1 : List Chunk
  parseFn : String → Option (List MToolCall)
  execTool : MToolCall → Except String String
  stream2 : List Chunk

/-- The streaming loop of orchestrator.py 264-285: accumulate
`full_content`, extend `current_tool_calls` with each chunk's fragments,
and yield the chunk only while `current_tool_calls` is still empty
(the emptiness test runs after extending with the current chunk). -/
def streamLoop : List Chunk → String → List MToolCall →
    String × List MToolCall × List Chunk
  | [], content, _ => (content, [], [])
  | c :: rest, content, calls =>
    let calls' := calls ++ c.toolCalls
    let r := streamLoop rest (content ++ c.content) calls'
    if calls'.isEmpty then (r.1, calls' ++ r.2.1, c :: r.2.2)
    else (r.1, calls' ++ r.2.1, r.2.2)

def simpleStreamContent (inp : SimpleInput) : String :=
  (streamLoop inp.stream1 "" []).1

def simpleStructCalls (inp : SimpleInput) : List MToolCall :=
  (streamLoop inp.stream1 "" []).2.1

def simpleYield1 (inp : SimpleInput) : List Chunk :=
  (streamLoop inp.stream1 "" []).2.2

/-- orchestrator.py 287-291: when no structured tool calls arrived and tools
were attached, run the best-effort parser over the accumulated text; a
non-empty parse result becomes `current_tool_calls` (the accumulated text is
NOT cleared here, unlike in the agentic engine). -/
def simpleRecoveredCalls (inp : SimpleInput) : List MToolCall :=
  let calls0 := simpleStructCalls inp
  if calls0.isEmpty && inp.toolsAvailable then
    match inp.parseFn (simpleStreamContent inp) with
    | some l => if l.isEmpty then calls0 else l
    | none => calls0
  else calls0

/-- orchestrator.py 332-341: tool execution with the catch-all `except`:
a raised exception becomes the string `Error executing tool <name>: <e>`. -/
def simpleToolResult (exec : MToolCall → Except String String)
    (tc : MToolCall) : String :=
  match exec tc with
  | .ok r => r
  | .error e => "Error executing tool " ++ tc.fname ++ ": " ++ e

/-- orchestrator.py 330: the `Executing <name>...` status chunk yielded
before each tool call. -/
def simpleStatusChunks (inp : SimpleInput) : List Chunk :=
  (simpleRecoveredCalls inp).map
    (fun tc => statusChunk ("Executing " ++ tc.fname ++ "..."))

/-- orchestrator.py 344-355: the persisted role=tool message for each call. -/
def simpleToolMsgs (inp : SimpleInput) : List Msg :=
  (simpleRecoveredCalls inp).map
    (fun tc => ⟨Role.tool, simpleToolResult inp.execTool tc, [], some tc.id⟩)

/-- The SIMPLE one-shot flow of `ChatOrchestrator.run` (orchestrator.py
258-423), producing the chunks yielded to the caller and the messages
persisted in order.  With tool calls: persist the assistant message with
its accumulated content and the calls, yield one status chunk per call,
persist each tool result, then stream the synthesis round (tools=None)
verbatim and persist its accumulated text.  Without tool calls: the
accumulated text is the final answer. -/
def runSimple (inp : SimpleInput) : List Chunk × List Msg :=
  if (simpleRecoveredCalls inp).isEmpty then
    (simpleYield1 inp, [⟨Role.assistant, simpleStreamContent inp, [], none⟩])
  else
    (simpleYield1 inp ++ simpleStatusChunks inp ++ inp.stream2,
      ⟨Role.assistant, simpleStreamContent inp, simpleRecoveredCalls inp, none⟩
        :: simpleToolMsgs inp
        ++ [⟨Role.assistant, String.join (inp.stream2.map Chunk.content), [], none⟩])

/-! ### Python string helpers shared by several modules -/

/-- Boolean test that `pat` is an initial segment of `l`. -/
def isPrefB : List Char → List Char → Bool
  | [], _ => true
  | _ :: _, [] => false
  | a :: asx, b :: bs => a == b && isPrefB asx bs

/-- Boolean substring containment, the Python `pat in l` test on strings. -/
def infixB (pat : List Char) : List Char → Bool
  | [] => pat.isEmpty
  | c :: t => isPrefB pat (c :: t) || infixB pat t

/-- Python `needle in hay` on `str`. -/
def strIn (needle hay : String) : Bool := infixB needle.toList hay.toList

/-- Python `str.lower()` (ASCII). -/
def pyLower (s : String) : String := String.mk (s.toList.map Char.toLower)

/-- Python `str.upper()` (ASCII). -/
def pyUpperStr (s : String) : String := String.mk (s.toList.map Char.toUpper)

/-- Worker for `pySplitWS`: `acc` holds the current token reversed. -/
def splitWSGo : List Char → List Char → List String
  | [], acc => if acc.isEmpty then [] else [String.mk acc.reverse]
  | c :: t, acc =>
    if c.isWhitespace then
      if acc.isEmpty then splitWSGo t []
      else String.mk acc.reverse :: splitWSGo t []
    else splitWSGo t (c :: acc)

/-- Python `str.split()` with no separator: split on whitespace runs,
dropping empty pieces. -/
def pySplitWS (s : String) : List String := splitWSGo s.toList []

/-- Worker for `splitUnderscore`. -/
def splitUnderscoreGo : List Char → List Char → List String
  | [], acc => [String.mk acc.reverse]
  | c :: t, acc =>
    if c = '_' then String.mk acc.reverse :: splitUnderscoreGo t []
    else splitUnderscoreGo t (c :: acc)

/-- Python `str.split("_")` (empty pieces kept). -/
def splitUnderscore (s : String) : List String := splitUnderscoreGo s.toList []

/-! ### Tool registry, tools/registry.py, and the orchestrator tool filters -/

/-- Registry state: locally registered tool names in insertion order
(`self._tools`), registered MCP client names in order (`self._mcp_clients`),
and the remote tool cache as (tool name, owning client name) pairs in
insertion order (`self._remote_tools_cache`). -/
structure RegState where
  localNames : List String
  clients : List String
  remote : List (String × String)
deriving Repr

/-- registry.py 89-95 `get_categories`: `["GENERAL"]` plus each client name
upper-cased, first occurrence kept. -/
def getCategories (r : RegState) : List String :=
  r.clients.foldl
    (fun acc c => if acc.contains (pyUpperStr c) then acc else acc ++ [pyUpperStr c])
    ["GENERAL"]

/-- registry.py 97-113 `get_tools_by_category`. -/
def getToolsByCategory (r : RegState) (cat : String) : List String :=
  let c := pyUpperStr cat
  if c = "GENERAL" then r.localNames
  else ((r.remote.filter (fun p => pyUpperStr p.2 = c)).map Prod.fst)

/-- registry.py 115-166 `get_ollama_tools`: category-priority selection plus
read/write/search keyword matches, deduplicated in order, truncated to
`MAX_TOOLS = 8`. -/
def getOllamaTools (r : RegState) (query : String) : List String :=
  if query = "" then []
  else
    let q := pyLower query
    let cats := getCategories r
    let priority := cats.foldl
      (fun acc cat =>
        if cat ≠ "GENERAL" && strIn (pyLower cat) q then
          acc ++ getToolsByCategory r cat
        else acc) []
    let allTools := r.localNames ++ r.remote.map Prod.fst
    let tokens := pySplitWS q
    let keywordMatches := allTools.foldl
      (fun acc nm =>
        let name := pyLower nm
        if tokens.any (fun t => strIn t name) || priority.contains nm then acc
        else if strIn "read" q && strIn "read" name then acc ++ [nm]
        else if strIn "write" q && strIn "write" name then acc ++ [nm]
        else if strIn "search" q && strIn "search" name then acc ++ [nm]
        else acc) []
    let filtered := (priority ++ keywordMatches).foldl
      (fun acc nm => if acc.contains nm then acc else acc ++ [nm]) []
    filtered.take 8

/-- orchestrator.py 564-583 `ChatOrchestrator._filter_tools`: the SIMPLE-mode
tool selection — the registry query filter further restricted by intent. -/
def filterTools (r : RegState) (intent query : String) : List String :=
  if intent = "GENERAL" then []
  else
    (getOllamaTools r query).filter
      (fun nm =>
        if intent = "GIT" then strIn "git" nm || strIn "repo" nm
        else if intent = "FILESYSTEM" then
          ["file", "dir", "list", "read", "write", "search"].any
            (fun x => strIn x nm)
        else if intent = "FETCH" then strIn "fetch" nm
        else false)

/-- agentic_engine.py 255-295 `AgenticEngine.get_expanded_tools`: the
COMPLEX-mode selection — intent category, query-mentioned categories,
keyword-matching GENERAL tools, deduplicated and capped at
`MAX_TOOLS_AGENTIC = 8`. -/
def getExpandedTools (r : RegState) (intent query : String) : List String :=
  let q := pyLower query
  let cands0 := getToolsByCategory r intent
  let cats := getCategories r
  let cands1 := cats.foldl
    (fun acc cat =>
      if cat = intent || cat = "GENERAL" then acc
      else if strIn (pyLower cat) q then acc ++ getToolsByCategory r cat
      else acc) cands0
  let generalTools := getToolsByCategory r "GENERAL"
  let cands2 := generalTools.foldl
    (fun acc nm =>
      if (splitUnderscore (pyLower nm)).any (fun tok => strIn tok q) then
        acc ++ [nm]
      else acc) cands1
  let uniqueTools := cands2.foldl
    (fun acc nm => if acc.contains nm then acc else acc ++ [nm]) []
  uniqueTools.take 8

/-! ### Agentic engine, services/agentic_engine.py -/

/-- agentic_engine.py 26: `MAX_AGENT_ROUNDS`. -/
def maxAgentRounds : Nat := 8

/-- agentic_engine.py 27: `AGENT_TIMEOUT_SEC`. -/
def agentTimeoutSec : Nat := 300

/-- Provider-side data of one ReAct round: the elapsed wall-clock seconds
observed at the top of the round (`time.time() - start_time`), the text
accumulated from the provider stream, the structured tool-call fragments,
the result of `provider._try_parse_tool_calls` on the text, and whether the
stream attached a usage record. -/
structure ARound where
  elapsed : Nat
  raw : String
  structuredCalls : List MToolCall
  parsed : Option (List MToolCall)
  usage : Bool

/-- Inputs of `AgenticEngine.execute`: the plan, the initially attached tool
names, the content of a pre-existing system message (if any), one `ARound`
per loop iteration, the tool-execution oracle, the combined effect of
`_needs_tool_expansion`/`_expand_tools_midloop` on the attached tool list,
and the text/usage of the forced synthesis stream. -/
structure AgenticIn where
  plan : List String
  toolNames : List String
  sysContent : Option String
  rounds : Nat → ARound
  execTool : MToolCall → Except String String
  expandStep : Nat → List String → List String
  synthText : String
  synthUsage : Bool

/-- Observable events of `AgenticEngine.execute`: a chunk yielded to the
caller, an in-loop `provider.stream` call with the attached tool names
(agentic_engine.py 446-452), the post-loop `provider.stream` synthesis call
with `tools=None` (agentic_engine.py 573-579), a message appended to the
working list, and a tool execution. -/
inductive AEv where
  | chunk (c : Chunk)
  | roundCall (toolsAttached : List String)
  | synthCall
  | addMsg (m : Msg)
  | toolRun (nm : String)
deriving DecidableEq, Repr

/-- agentic_engine.py 459-464: fallback parsing — when no structured calls
arrived and tools are attached, a non-empty parse result becomes the calls
and the accumulated raw text is cleared (`full_content = ""`). -/
def agentFallback (tools : List String) (raw : String)
    (structured : List MToolCall) (parsed : Option (List MToolCall)) :
    String × List MToolCall :=
  if structured.isEmpty && !tools.isEmpty then
    match parsed with
    | some l => if l.isEmpty then (raw, structured) else ("", l)
    | none => (raw, structured)
  else (raw, structured)

/-- agentic_engine.py 504-515: tool execution; a raised exception becomes
`Error executing <name>: <e>` (note: no word `tool`, unlike the
orchestrator's one-shot path). -/
def agentToolResult (exec : MToolCall → Except String String)
    (tc : MToolCall) : String :=
  match exec tc with
  | .ok r => r
  | .error e => "Error executing " ++ tc.fname ++ ": " ++ e

/-- agentic_engine.py 491-531: the events of executing one tool call —
`Calling <name>...` status, the execution, the appended role=tool message
carrying the call's id, and the `<name> ✅` status. -/
def agentToolBlock (exec : MToolCall → Except String String)
    (stepLabel : String) (tc : MToolCall) : List AEv :=
  [ .chunk (statusChunk ("📋 " ++ stepLabel ++ ": Calling " ++ tc.fname ++ "...")),
    .toolRun tc.fname,
    .addMsg ⟨Role.tool, agentToolResult exec tc, [], some tc.id⟩,
    .chunk (statusChunk ("📋 " ++ stepLabel ++ ": " ++ tc.fname ++ " ✅")) ]

/-- agentic_engine.py 390: the numbered plan text. -/
def planLineText (plan : List String) : String :=
  String.intercalate "\n" (plan.enum.map (fun p => toString (p.1 + 1) ++ ". " ++ p.2))

/-- agentic_engine.py 600: the plan text of the agentic system prompt
(two-space indent). -/
def planIndentText (plan : List String) : String :=
  String.intercalate "\n"
    (plan.enum.map (fun p => "  " ++ toString (p.1 + 1) ++ ". " ++ p.2))

/-- agentic_engine.py 594-615 `_get_agentic_system_prompt`. -/
def agenticSystemPrompt (plan : List String) (toolNames : List String) : String :=
  let toolsList := if toolNames.isEmpty then "none" else String.intercalate ", " toolNames
  "--- AGENTIC MODE (Phase 5.5) ---\n" ++
  "You are solving a complex task step by step.\n\n" ++
  "YOUR PLAN:\n" ++ planIndentText plan ++ "\n\n" ++
  "RULES:\n" ++
  "1. Execute ONE step at a time. Call the appropriate tool for the current step.\n" ++
  "2. Use ONLY these tools: " ++ toolsList ++ ". Do NOT invent tool names.\n" ++
  "3. After each tool result, evaluate what you learned.\n" ++
  "4. If a step reveals unexpected information, adapt your approach.\n" ++
  "5. When you have enough information to answer, respond with text (no tool call).\n" ++
  "6. Keep each tool call focused — prefer one call per step.\n" ++
  "7. If a step involves writing code or calculating, you MUST use the \x27run_python_script\x27 tool if available rather than simulating it.\n" ++
  "8. Maximum " ++ toString maxAgentRounds ++ " rounds allowed.\n"

/-- agentic_engine.py 541-562: guidance appended after a tool round, naming
the next step or demanding synthesis once the steps are exhausted. -/
def nextGuidance (plan : List String) (step : Nat) : Msg :=
  if step < plan.length then
    ⟨Role.user,
      "Good. Now proceed to step " ++ toString (step + 1) ++ " of " ++
        toString plan.length ++ ": " ++ plan.getD step "" ++
        "\n\nCall the appropriate tool, or if you have enough information " ++
        "to answer directly, provide your final comprehensive answer.",
      [], none⟩
  else
    ⟨Role.user,
      "All planned steps are complete. Now synthesize ALL the information " ++
        "you gathered and provide a comprehensive final answer to the " ++
        "original request. Do NOT call any more tools.",
      [], none⟩

/-- The ReAct loop of agentic_engine.py 427-562 (`for round_num in
range(MAX_AGENT_ROUNDS)`), with `n` remaining iterations, `i` the next
round index, `step` the current step counter and `tools` the attached tool
names.  Returns the emitted events and whether the loop returned early with
a final answer (agentic_engine.py 467-480); a `false` flag means the caller
must run the forced synthesis. -/
def agenticLoop (inp : AgenticIn) :
    Nat → Nat → Nat → List String → List AEv × Bool
  | 0, _, _, _ => ([], false)
  | n + 1, i, step, tools =>
    let rd := inp.rounds i
    if rd.elapsed > agentTimeoutSec then
      ([.chunk (statusChunk "⏱️ Timeout reached — generating best answer with available info...")],
        false)
    else
      let fc := agentFallback tools rd.raw rd.structuredCalls rd.parsed
      if fc.2.isEmpty then
        ([.roundCall tools,
          .chunk (statusChunk ("📋 Step " ++ toString (step + 1) ++ "/" ++
            toString inp.plan.length ++ ": Synthesizing final answer... ✅")),
          .chunk (doneChunk fc.1 rd.usage)],
          true)
      else
        let lbl := "Step " ++ toString (min (step + 1) inp.plan.length) ++ "/" ++
          toString inp.plan.length
        let blocks := fc.2.foldr
          (fun tc acc => agentToolBlock inp.execTool lbl tc ++ acc) []
        let res := agenticLoop inp n (i + 1) (step + 1) (inp.expandStep i tools)
        (.roundCall tools :: .addMsg ⟨Role.assistant, fc.1, fc.2, none⟩ :: blocks
          ++ [.addMsg (nextGuidance inp.plan (step + 1))] ++ res.1,
          res.2)

/-- agentic_engine.py 401-410: the injected/merged agentic system message. -/
def agenticSysMsg (inp : AgenticIn) : Msg :=
  ⟨Role.system,
    (match inp.sysContent with
     | some c => c ++ "\n\n" ++ agenticSystemPrompt inp.plan inp.toolNames
     | none => agenticSystemPrompt inp.plan inp.toolNames),
    [], none⟩

/-- agentic_engine.py 413-422: the guidance message that starts execution. -/
def agenticGuid0 (inp : AgenticIn) : Msg :=
  ⟨Role.user,
    "Execute the plan step by step. You are on step 1 of " ++
      toString inp.plan.length ++ ". Step 1: " ++ inp.plan.headD "" ++
      "\n\nCall the appropriate tool for this step. When you have completed " ++
      "ALL steps and have enough information, provide your final " ++
      "comprehensive answer as text.",
    [], none⟩

/-- agentic_engine.py 389-422: the preamble events before the ReAct loop. -/
def agenticPreamble (inp : AgenticIn) : List AEv :=
  [.chunk (statusChunk ("📋 Plan (" ++ toString inp.plan.length ++ " steps):\n" ++
    planLineText inp.plan)),
   .addMsg (agenticSysMsg inp), .addMsg (agenticGuid0 inp)]

/-- `AgenticEngine.execute` (agentic_engine.py 369-588): plan status chunk,
system-prompt injection, initial guidance, the ReAct loop, and — when the
loop ended by round cap or timeout — the forced synthesis stream with
`tools=None` whose accumulated text is emitted as the terminal chunk. -/
def agenticExec (inp : AgenticIn) : List AEv × Bool :=
  let res := agenticLoop inp maxAgentRounds 0 0 inp.toolNames
  if res.2 then (agenticPreamble inp ++ res.1, true)
  else
    (agenticPreamble inp ++ res.1 ++
      [.chunk (statusChunk "🧠 Generating final answer..."),
       .synthCall,
       .chunk (doneChunk inp.synthText inp.synthUsage)],
      false)

/-- Recognizer for in-loop provider calls. -/
def isRoundCallEv : AEv → Bool
  | .roundCall _ => true
  | _ => false

/-- Recognizer for the forced-synthesis provider call (`tools=None`). -/
def isSynthEv : AEv → Bool
  | .synthCall => true
  | _ => false

/-- Recognizer for any LLM stream call. -/
def isLLMCallEv (e : AEv) : Bool := isRoundCallEv e || isSynthEv e

/-- Recognizer for an appended assistant message carrying tool calls
(one per tool-executing round). -/
def isAsstToolsEv : AEv → Bool
  | .addMsg m => m.role == Role.assistant && !m.toolCalls.isEmpty
  | _ => false

/-! ### End-of-turn summarization, orchestrator.py 251-253, 411-420, 425-492 -/

/-- Provider outputs consumed by `_summarize_conversation`: the new-segment
summary (first `complete` call) and the consolidated summary (second
`complete` call, made only when a prior summary exists). -/
structure SummProviderOut where
  newSegment : String
  consolidated : String

/-- orchestrator.py 425-489 `_summarize_conversation` (success path): fetch
the last `min(current_seq - last_seq, 100)` messages, ask the provider for a
segment summary with `max_tokens=200`, consolidate with the prior summary
(if non-empty) with `max_tokens=300`, and write the result back with
`last_summarized_seq := current_seq`.  Returns the new summary, the new
`last_summarized_seq`, the fetch limit used, and the `max_tokens` of the
provider calls in order. -/
def summarizeConversation (currentSeq lastSeq : Int) (oldSummary : String)
    (p : SummProviderOut) : String × Int × Int × List Nat :=
  let fetchLimit := min (currentSeq - lastSeq) 100
  if oldSummary ≠ "" then (p.consolidated, currentSeq, fetchLimit, [200, 300])
  else (p.newSegment, currentSeq, fetchLimit, [200])

/-- The end-of-turn check of orchestrator.py 252-253 and 413-420 (identical
in the COMPLEX and SIMPLE paths): run `_summarize_conversation` iff
`current_seq - last_summarized_seq >= 20`.  Returns the resulting
(summary, last_summarized_seq) pair and, when summarization ran, its
(fetch limit, provider max_tokens) trace. -/
def turnEndSummarize (currentSeq lastSeq : Int) (oldSummary : String)
    (p : SummProviderOut) : (String × Int) × Option (Int × List Nat) :=
  if currentSeq - lastSeq ≥ 20 then
    let r := summarizeConversation currentSeq lastSeq oldSummary p
    ((r.1, r.2.1), some (r.2.2.1, r.2.2.2))
  else ((oldSummary, lastSeq), none)

/-! ### Tool-call id minting in the Ollama provider, providers/ollama.py -/

/-- Outcome of evaluating a Python expression: a value, or a raised
exception identified by its class name. -/
inductive PyOutcome (α : Type) where
  | ok (a : α)
  | raises (exc : String)
deriving DecidableEq, Repr

/-- The names bound at module level in providers/ollama.py (lines 1-25 plus
the module-level `logger` and the class): `import logging`, `import time`,
`from typing import ...`, `import httpx`, `from ..config import
get_settings`, `from ..models.schemas import (...)`, `from .base import
BaseLLMProvider`.  `uuid` is never imported in this module (the
function-local imports are `json` and `re` only). -/
def ollamaModuleNames : List String :=
  ["logging", "time", "AsyncGenerator", "List", "Optional", "httpx",
   "get_settings", "ChatMessage", "ChatResponse", "MessageRole", "StreamChunk",
   "UsageInfo", "ToolCall", "ToolCallFunction", "BaseLLMProvider", "logger",
   "OllamaProvider"]

/-- The names bound at module level in models/schemas.py (lines 1-8 onward):
`import uuid`, `from datetime import datetime`, `from enum import Enum`,
`from typing import ...`, `from pydantic import BaseModel, Field`, plus the
model classes. -/
def schemasModuleNames : List String :=
  ["uuid", "datetime", "Enum", "Any", "Dict", "List", "Optional",
   "BaseModel", "Field", "MessageRole", "ToolCallFunction", "ToolCall",
   "MediaAttachment", "ChatMessage", "ChatRequest", "UsageInfo",
   "ChatResponse", "StreamChunk", "ConversationInfo", "HealthResponse",
   "ErrorResponse"]

/-- Evaluating a global name in a Python module: `NameError` iff unbound. -/
def pyEvalGlobal (env : List String) (nm : String) : PyOutcome Unit :=
  if env.contains nm then .ok () else .raises "NameError"

/-- Python truthiness of `tc.get("id")`: `none` models an absent key or a
JSON `null`; the empty string is falsy. -/
def pyTruthy : Option String → Bool
  | none => false
  | some s => s ≠ ""

/-- providers/ollama.py 199 and 291: `tc.get("id") or str(uuid.uuid4())`,
evaluated in the module's namespace.  The `or` short-circuits, so
`uuid.uuid4()` is evaluated exactly when the id field is absent, null or
empty — and then the unbound name `uuid` raises `NameError`. -/
def ollamaToolCallIdExpr (freshUuid : String) (idField : Option String) :
    PyOutcome String :=
  if pyTruthy idField then .ok (idField.getD "")
  else
    match pyEvalGlobal ollamaModuleNames "uuid" with
    | .ok _ => .ok freshUuid
    | .raises e => .raises e

/-- models/schemas.py 26: the `ToolCall.id` default factory
`lambda: str(uuid.uuid4())`, evaluated in the schemas module where `uuid`
is imported — this is the path taken by `_try_parse_tool_calls`, which
constructs `ToolCall(function=...)` without an id. -/
def schemasToolCallDefaultId (freshUuid : String) : PyOutcome String :=
  match pyEvalGlobal schemasModuleNames "uuid" with
  | .ok _ => .ok freshUuid
  | .raises e => .raises e

/-! ### JSON values, `json.dumps(..., sort_keys=True)` and the MCP call
cache key, tools/mcp_client.py 97-145 -/

/-- JSON values, as passed for tool arguments. -/
inductive JVal where
  | null
  | bool (b : Bool)
  | num (n : Int)
  | str (s : String)
  | arr (xs : List JVal)
  | obj (fs : List (String × JVal))
deriving Repr

/-- JSON string escaping of the quote and backslash characters (the
argument keys and values in play contain no control characters). -/
def escapeJStr (s : String) : String :=
  s.toList.foldl
    (fun acc c =>
      if c = '"' then acc ++ "\\\""
      else if c = '\\' then acc ++ "\\\\"
      else acc.push c) ""

mutual

/-- `json.dumps` with the default separators `", "` and `": "`.  Object
fields are emitted in the order given; `dumpsSortedArgs` below applies the
`sort_keys=True` ordering to the argument mapping. -/
def JVal.dumps : JVal → String
  | .null => "null"
  | .bool true => "true"
  | .bool false => "false"
  | .num n => toString n
  | .str s => "\"" ++ escapeJStr s ++ "\""
  | .arr xs => "[" ++ dumpsArr xs ++ "]"
  | .obj fs => "\x7b" ++ dumpsObj fs ++ "\x7d"

def dumpsArr : List JVal → String
  | [] => ""
  | [x] => JVal.dumps x
  | x :: y :: t => JVal.dumps x ++ ", " ++ dumpsArr (y :: t)

def dumpsObj : List (String × JVal) → String
  | [] => ""
  | [(k, v)] => "\"" ++ escapeJStr k ++ "\": " ++ JVal.dumps v
  | (k, v) :: y :: t =>
    "\"" ++ escapeJStr k ++ "\": " ++ JVal.dumps v ++ ", " ++ dumpsObj (y :: t)

end

/-- Insert a field into a key-sorted field list (ascending key order). -/
def insField (p : String × JVal) : List (String × JVal) → List (String × JVal)
  | [] => [p]
  | q :: t => if p.1 ≤ q.1 then p :: q :: t else q :: insField p t

/-- Sort an argument mapping by key — the effect of `sort_keys=True` on the
top-level object. -/
def sortFields : List (String × JVal) → List (String × JVal)
  | [] => []
  | p :: t => insField p (sortFields t)

/-- mcp_client.py 116: `json.dumps(arguments, sort_keys=True)` on the
argument mapping. -/
def dumpsSortedArgs (args : List (String × JVal)) : String :=
  JVal.dumps (.obj (sortFields args))

/-- mcp_client.py 116-118: the cache key
`f"tool:{self.name}:{name}:{args_hash}"` where `args_hash` is the (md5)
digest of the canonical serialization; the digest is an arbitrary
deterministic function of that string. -/
def callToolCacheKey (md5hex : String → String)
    (srcName toolName : String) (args : List (String × JVal)) : String :=
  "tool:" ++ srcName ++ ":" ++ toolName ++ ":" ++ md5hex (dumpsSortedArgs args)

/-! ### Redis cache, database/redis.py, and the cached `call_tool` -/

/-- A value handed to `RedisClient.set` or returned by `RedisClient.get`:
either a Python `str` or a decoded JSON value. -/
inductive RVal where
  | str (s : String)
  | jsonv (v : JVal)
deriving Repr

/-- redis.py 57: `json.dumps(value) if not isinstance(value, str) else
value` — strings are stored verbatim. -/
def rvalSerialize : RVal → String
  | .str s => s
  | .jsonv v => v.dumps

/-- redis.py 52-58 `RedisClient.set` over a string store. -/
def redisSet (st : String → Option String) (k : String) (v : RVal) :
    String → Option String :=
  fun k' => if k' = k then some (rvalSerialize v) else st k'

/-- redis.py 36-50 `RedisClient.get`: a stored non-empty string is
`json.loads`-decoded when possible, returned raw otherwise; an absent key
or a stored empty string (falsy) yields `None`.  The standard-library
parser is a parameter `loads`. -/
def redisGet (loads : String → Option JVal) (st : String → Option String)
    (k : String) : Option RVal :=
  match st k with
  | none => none
  | some value =>
    if value = "" then none
    else
      match loads value with
      | some j => some (.jsonv j)
      | none => some (.str value)

/-- Python truthiness of a decoded JSON value. -/
def jvalTruthy : JVal → Bool
  | .null => false
  | .bool b => b
  | .num n => n ≠ 0
  | .str s => s ≠ ""
  | .arr xs => !xs.isEmpty
  | .obj fs => !fs.isEmpty

/-- Python truthiness of a cache read result (`if cached_result:`). -/
def rvalTruthy : RVal → Bool
  | .str s => s ≠ ""
  | .jsonv v => jvalTruthy v

/-- mcp_client.py 97-145 `MCPClient.call_tool` (success path): compute the
canonical cache key; a truthy cached value is returned as-is; otherwise the
tool executes, its flattened text output `execOut` (always a `str`) is
returned, and that string is cached verbatim.  Returns the result and the
updated store. -/
def callToolCached (loads : String → Option JVal) (md5hex : String → String)
    (st : String → Option String) (srcName toolName : String)
    (args : List (String × JVal)) (execOut : String) :
    RVal × (String → Option String) :=
  let key := callToolCacheKey md5hex srcName toolName args
  match redisGet loads st key with
  | some v =>
    if rvalTruthy v then (v, st)
    else (RVal.str execOut, redisSet st key (.str execOut))
  | none => (RVal.str execOut, redisSet st key (.str execOut))

/-! ### Classifier response parsing,
agentic_engine.py 125-172 `classify_intent_and_complexity` -/

/-- Python whitespace, as stripped by `str.strip()` (ASCII range). -/
def isWS (c : Char) : Bool :=
  c = ' ' || c = '\t' || c = '\n' || c = '\r' || c = '\x0b' || c = '\x0c'

/-- Left strip. -/
def stripL (l : List Char) : List Char := l.dropWhile isWS

/-- Right strip. -/
def stripR (l : List Char) : List Char := (l.reverse.dropWhile isWS).reverse

/-- Python `str.strip()`. -/
def pyStrip (l : List Char) : List Char := stripR (stripL l)

/-- Python `str.upper()` (ASCII). -/
def upperL (l : List Char) : List Char := l.map Char.toUpper

/-- One segment of Python `str.splitlines()` (ASCII line boundaries:
`\n`, `\r`, `\r\n`, `\x0b`, `\x0c`). -/
def isLB (c : Char) : Bool :=
  c = '\n' || c = '\r' || c = '\x0b' || c = '\x0c'

/-- Python `str.splitlines()` worker: `acc` holds the current line
reversed; a trailing line boundary does not open an empty final line. -/
def splitLinesGo : List Char → List Char → List (List Char)
  | [], acc => [acc.reverse]
  | '\r' :: '\n' :: t, acc =>
    acc.reverse :: (if t.isEmpty then [] else splitLinesGo t [])
  | c :: t, acc =>
    if isLB c then acc.reverse :: (if t.isEmpty then [] else splitLinesGo t [])
    else splitLinesGo t (c :: acc)

/-- Python `str.splitlines()` (`"" → []`). -/
def splitLines (l : List Char) : List (List Char) :=
  if l.isEmpty then [] else splitLinesGo l []

/-- Worker for `replaceAll`, structurally recursive on a fuel counter.
Each step consumes at least one character of `l`, so fuel `l.length`
suffices; a non-matching position keeps its character, a match emits `rep`
and skips the (non-empty) pattern. -/
def replaceAllGo (pat rep : List Char) : Nat → List Char → List Char
  | 0, l => l
  | _ + 1, [] => []
  | fuel + 1, c :: t =>
    if !pat.isEmpty && isPrefB pat (c :: t) then
      rep ++ replaceAllGo pat rep fuel ((c :: t).drop pat.length)
    else c :: replaceAllGo pat rep fuel t

/-- Python `str.replace(pat, rep)` for a non-empty pattern: left-to-right,
non-overlapping. -/
def replaceAll (pat rep : List Char) (l : List Char) : List Char :=
  replaceAllGo pat rep l.length l

/-- The token `"INTENT:"`. -/
def intentKey : List Char := "INTENT:".toList

/-- The token `"COMPLEXITY"`. -/
def complexityKey : List Char := "COMPLEXITY".toList

/-- The token `"COMPLEX"`. -/
def complexTok : List Char := "COMPLEX".toList

/-- The token `"SIMPLE"`. -/
def simpleTok : List Char := "SIMPLE".toList

/-- The token `"GENERAL"`. -/
def generalTok : List Char := "GENERAL".toList

/-- agentic_engine.py 136: `line.replace("INTENT:", "").strip().upper()`. -/
def cleanLine (line : List Char) : List Char :=
  upperL (pyStrip (replaceAll intentKey [] line))

/-- Insert into a length-descending sorted list of candidate names. -/
def insLen (x : List Char) : List (List Char) → List (List Char)
  | [] => [x]
  | y :: t => if y.length < x.length then x :: y :: t else y :: insLen x t

/-- agentic_engine.py 145: `sorted(valid_intents, key=len, reverse=True)`. -/
def sortLenDesc : List (List Char) → List (List Char)
  | [] => []
  | x :: t => insLen x (sortLenDesc t)

/-- agentic_engine.py 145-148: scan the candidates in length-descending
order for the first one contained in the cleaned line. -/
def firstMatch (cands : List (List Char)) (clean : List Char) :
    Option (List Char) :=
  cands.find? (fun v => infixB v clean)

/-- agentic_engine.py 131-151: the intent loop.  Exact match of the cleaned
line breaks immediately; otherwise the length-descending substring scan
assigns the intent and the outer loop breaks only when that assignment is
not `"GENERAL"`. -/
def intentOf (valid : List (List Char)) : List (List Char) → List Char
  | [] => generalTok
  | line :: rest =>
    let clean := cleanLine line
    if clean ∈ valid then clean
    else
      match firstMatch (sortLenDesc valid) clean with
      | some v => if v = generalTok then intentOf valid rest else v
      | none => intentOf valid rest

/-- The suffix after the first occurrence of `pat`
(`line.split(pat, 1)[1]`); the caller guarantees the occurrence. -/
def afterFirst (pat : List Char) : List Char → List Char
  | [] => []
  | c :: t => if isPrefB pat (c :: t) then (c :: t).drop pat.length
              else afterFirst pat t

/-- The test of one complexity line: `"COMPLEXITY" in line` and then
`"COMPLEX" in line.upper().split("COMPLEXITY", 1)[1]`
(agentic_engine.py 158-165). -/
def complexLineHit (line : List Char) : Bool :=
  infixB complexityKey line &&
    infixB complexTok (afterFirst complexityKey (upperL line))

/-- agentic_engine.py 153-166: the complexity loop over the lines; the flag
is set by a hit and never reset. -/
def complexityOf (lines : List (List Char)) : List Char :=
  lines.foldl (fun acc line => if complexLineHit line then complexTok else acc)
    simpleTok

/-- agentic_engine.py 125: `text = response.message.content.strip().upper()`
followed by the line-wise intent and complexity scans over
`text.splitlines()`. -/
def classifyParse (valid : List (List Char)) (raw : List Char) :
    List Char × List Char :=
  let lines := splitLines (upperL (pyStrip raw))
  (intentOf valid lines, complexityOf lines)

/-! ### Concrete scenario inputs -/

/-- A model answer that is only a raw JSON tool call (no structured tool
calls on the wire). -/
def c1RawText : String := "\x7b\"name\": \"list_directory\", \"arguments\": \x7b\x7d\x7d"

/-- SIMPLE turn in which the provider stream carries no structured tool
calls and finishes with its `done=true` chunk, while the accumulated text
parses to a tool call. -/
def c1Input : SimpleInput where
  toolsAvailable := true
  stream1 := [⟨c1RawText, none, false, [], false⟩, ⟨"", none, true, [], true⟩]
  parseFn := fun s =>
    if s = c1RawText then some [⟨"parsed-1", "list_directory"⟩] else none
  execTool := fun _ => .ok "file_a.txt\nfile_b.txt"
  stream2 := [⟨"The directory contains file_a.txt and file_b.txt.", none, true, [], true⟩]

/-- SIMPLE turn with a structured `git_status` call whose execution raises. -/
def c2SInput : SimpleInput where
  toolsAvailable := true
  stream1 := [⟨"", none, true, [⟨"call-1", "git_status"⟩], true⟩]
  parseFn := fun _ => none
  execTool := fun _ => .error "TimeoutError: tool call timed out"
  stream2 := [⟨"I could not check the git status.", none, true, [], true⟩]

/-- Registry with one `filesystem` MCP source exposing six tools. -/
def c4Reg : RegState where
  localNames := []
  clients := ["filesystem"]
  remote := [("read_file_a", "filesystem"), ("read_file_b", "filesystem"),
             ("write_file_a", "filesystem"), ("list_dir_a", "filesystem"),
             ("search_files_a", "filesystem"), ("dir_tree_a", "filesystem")]

/-- A model answer that is only a raw JSON `git_status` call. -/
def c5RawText : String := "\x7b\"name\": \"git_status\", \"arguments\": \x7b\x7d\x7d"

/-- SIMPLE turn in which tool calls are recovered only by the text parser. -/
def c5Input : SimpleInput where
  toolsAvailable := true
  stream1 := [⟨c5RawText, none, false, [], false⟩, ⟨"", none, true, [], true⟩]
  parseFn := fun s =>
    if s = c5RawText then some [⟨"parsed-5", "git_status"⟩] else none
  execTool := fun _ => .ok "clean"
  stream2 := [⟨"The working tree is clean.", none, true, [], true⟩]

/-- Key-sortedness of a field list. -/
def SortedKeys (l : List (String × JVal)) : Prop :=
  l.Pairwise (fun a b => a.1 ≤ b.1)

/-- Length-descending sortedness of the candidate list. -/
def DescLen (l : List (List Char)) : Prop :=
  l.Pairwise (fun a b => b.length ≤ a.length)

/-- ReAct round data with a structured `git_status` call in round 0 and a
plain final answer afterwards. -/
def c2AInput : AgenticIn where
  plan := ["Check the git status", "Summarize the findings"]
  toolNames := ["git_status"]
  sysContent := none
  rounds := fun i =>
    if i = 0 then ⟨0, "", [⟨"call-2", "git_status"⟩], none, false⟩
    else ⟨1, "All done.", [], none, true⟩
  execTool := fun _ => .error "boom"
  expandStep := fun _ tools => tools
  synthText := "synthesized"
  synthUsage := false

/-- Input whose only round observes 301 s elapsed, forcing the timeout
path. -/
def c3Input : AgenticIn where
  plan := ["Check the git status"]
  toolNames := ["git_status"]
  sysContent := none
  rounds := fun _ => ⟨301, "", [], none, false⟩
  execTool := fun _ => .ok "ok"
  expandStep := fun _ tools => tools
  synthText := "Best answer with available info."
  synthUsage := true

/-- Registered categories for the classifier witness (a registry may expose
both a `FILESYSTEM` and a `FILE` category). -/
def c7Valid : List (List Char) :=
  ["GENERAL".toList, "GIT".toList, "FILESYSTEM".toList, "FILE".toList]

/-- A classifier response with no category token and a COMPLEX marker. -/
def c7Raw : List Char := "hallo\ncomplexity: complex".toList

/-- A genuine case change: it rewrites `a` to `A`. -/
def c7CaseFlip : Char → Char := fun c => if c = 'a' then 'A' else c

/-- A concrete stand-in for `json.loads`, defined on the strings this
file's witnesses feed it. -/
def c10Loads : String → Option JVal := fun s =>
  if s = "[1, 2]" then some (.arr [.num 1, .num 2]) else none

/-! ### Claims -/

/-- Claim C1 (code bug in the one-shot path): when tool calls are recovered
only by the best-effort text parser, the provider stream's `done=true`
chunk has already been forwarded to the caller (orchestrator.py 275-276
yields every chunk while `current_tool_calls` is empty, and the parser only
runs after the stream at lines 287-291), after which the orchestrator emits
the `Executing ...` status chunk and the whole synthesis stream with a
second `done=true` chunk.  On the concrete input the caller-visible stream
contains two `done=true` chunks and three chunks after the first of them —
the spec's invariant "exactly one `done=true`, and it is the last chunk"
is violated. -/
theorem c1_done_chunk_not_terminal :
    ((runSimple c1Input).1.countP (fun c => c.done)) = 2 ∧
    ((runSimple c1Input).1.dropWhile (fun c => !c.done)).length = 3 := by
  decide

/-- Claim C2 (counterexample): on a SIMPLE turn whose `git_status` call
times out, the persisted role=tool message's content is
`Error executing tool git_status: ...` (orchestrator.py 340), which does
not begin with the claimed exact prefix `Error executing git_status:`. -/
theorem c2_orchestrator_wording_counterexample :
    (runSimple c2SInput).2.get? 1 =
      some ⟨Role.tool,
        "Error executing tool git_status: TimeoutError: tool call timed out",
        [], some "call-1"⟩ ∧
    isPrefB "Error executing git_status:".toList
        "Error executing tool git_status: TimeoutError: tool call timed out".toList
      = false := by
  decide

/-- Claim C4 (code bug): the SIMPLE one-shot tool selection
(`_filter_tools` over `get_ollama_tools`) returns six tools for a registry
whose `filesystem` source exposes six matching tools — `get_ollama_tools`
caps at `MAX_TOOLS = 8` (registry.py 117, "Increased for agentic mode"),
not at the documented one-shot cap of 5 (agentic_engine.py 28 still
documents "slightly higher than one-shot's 5").  The COMPLEX-mode selection
is capped at 8 as claimed. -/
theorem c4_simple_cap_exceeded :
    (filterTools c4Reg "FILESYSTEM" "use filesystem").length = 6 ∧
    ¬ ((filterTools c4Reg "FILESYSTEM" "use filesystem").length ≤ 5) ∧
    (getExpandedTools c4Reg "FILESYSTEM" "use filesystem").length ≤ 8 := by
  decide

/-- Claim C5 (counterexample): in the one-shot path, when tool calls are
recovered only by the text parser, the raw text has already been streamed
to the caller as content and the assistant-with-tool-calls message is
persisted with that raw text as its content (orchestrator.py 287-315 never
clears `full_content`, unlike agentic_engine.py 464). -/
theorem c5_oneshot_counterexample :
    ((runSimple c5Input).1.any (fun c => c.content = c5RawText)) = true ∧
    (runSimple c5Input).2.get? 0 =
      some ⟨Role.assistant, c5RawText, [⟨"parsed-5", "git_status"⟩], none⟩ ∧
    c5RawText ≠ "" := by
  decide

/-- Claim C6: end-of-turn summarization runs iff
`current_seq - last_summarized_seq >= 20`; when it runs it fetches the last
`min(gap, 100)` messages, calls the provider with `max_tokens=200` for the
new segment (plus a `max_tokens=300` consolidation call exactly when a
prior summary exists) and writes back `last_summarized_seq = current_seq`;
in every case `last_summarized_seq <= current_seq` holds afterwards. -/
theorem c6_summarization_schedule (currentSeq lastSeq : Int)
    (oldSummary : String) (p : SummProviderOut) (h : lastSeq ≤ currentSeq) :
    ((turnEndSummarize currentSeq lastSeq oldSummary p).2.isSome ↔
      currentSeq - lastSeq ≥ 20) ∧
    (∀ fl mt, (turnEndSummarize currentSeq lastSeq oldSummary p).2 = some (fl, mt) →
      fl = min (currentSeq - lastSeq) 100 ∧
      mt = (if oldSummary ≠ "" then [200, 300] else [200]) ∧
      (turnEndSummarize currentSeq lastSeq oldSummary p).1.2 = currentSeq) ∧
    (turnEndSummarize currentSeq lastSeq oldSummary p).1.2 ≤ currentSeq := by
  unfold turnEndSummarize summarizeConversation
  by_cases h20 : currentSeq - lastSeq ≥ 20
  · by_cases hs : oldSummary ≠ "" <;> simp [h20, hs]
  · simp [h20, h]

/-- Claim C6 witness: a turn ending at sequence 25 with no prior summary. -/
theorem c6_summarization_schedule_witness :
    ((turnEndSummarize 25 0 "" ⟨"segment", "merged"⟩).2.isSome ↔
      (25 : Int) - 0 ≥ 20) ∧
    (∀ fl mt, (turnEndSummarize 25 0 "" ⟨"segment", "merged"⟩).2 = some (fl, mt) →
      fl = min ((25 : Int) - 0) 100 ∧
      mt = (if ("" : String) ≠ "" then [200, 300] else [200]) ∧
      (turnEndSummarize 25 0 "" ⟨"segment", "merged"⟩).1.2 = 25) ∧
    (turnEndSummarize 25 0 "" ⟨"segment", "merged"⟩).1.2 ≤ 25 :=
  c6_summarization_schedule 25 0 "" ⟨"segment", "merged"⟩ (by decide)

/-- Claim C9: in providers/ollama.py the name `uuid` is never imported, so
the id expression `tc.get("id") or str(uuid.uuid4())` on the structured
tool-call branches of `complete` (line 199) and `stream` (line 291) raises
`NameError` exactly when the id field is absent, null or empty, and returns
the wire id otherwise; the text-parser path constructs `ToolCall` without an
id, whose default factory lives in models/schemas.py where `uuid` is
imported, so it succeeds with a fresh id. -/
theorem c9_missing_uuid_import (freshUuid : String) (idField : Option String) :
    ollamaModuleNames.contains "uuid" = false ∧
    schemasModuleNames.contains "uuid" = true ∧
    ollamaToolCallIdExpr freshUuid idField =
      (if pyTruthy idField then PyOutcome.ok (idField.getD "")
       else PyOutcome.raises "NameError") ∧
    schemasToolCallDefaultId freshUuid = PyOutcome.ok freshUuid := by
  have hmem : ollamaModuleNames.contains "uuid" = false := by decide
  refine ⟨hmem, by decide, ?_, by rfl⟩
  by_cases hc : pyTruthy idField
  · simp [ollamaToolCallIdExpr, hc]
  · have hmem' : ¬ ("uuid" ∈ ollamaModuleNames) := by decide
    simp [ollamaToolCallIdExpr, hc, pyEvalGlobal, hmem']

/-- Claim C10: `RedisClient.set` stores a string verbatim while
`RedisClient.get` JSON-decodes it whenever it parses, so get-after-set is
not the identity on strings; consequently the second `call_tool` invocation
returns the decoded value where the first returned the raw string, whenever
the tool's text output is valid JSON with a truthy decoding. -/
theorem c10_get_set_decode (loads : String → Option JVal)
    (md5hex : String → String) (st : String → Option String) (k s : String)
    (j : JVal) (src n : String) (args : List (String × JVal))
    (execOut execOut₂ : String) (jo : JVal)
    (h1 : loads s = some j) (h2 : s ≠ "")
    (h3 : st (callToolCacheKey md5hex src n args) = none)
    (h4 : loads execOut = some jo) (h5 : jvalTruthy jo = true)
    (h6 : execOut ≠ "") :
    (redisGet loads (redisSet st k (.str s)) k = some (.jsonv j) ∧
      redisGet loads (redisSet st k (.str s)) k ≠ some (.str s)) ∧
    ((callToolCached loads md5hex st src n args execOut).1 = .str execOut ∧
      (callToolCached loads md5hex
          (callToolCached loads md5hex st src n args execOut).2
          src n args execOut₂).1 = .jsonv jo) := by
  constructor
  · constructor
    · simp [redisGet, redisSet, rvalSerialize, h1, h2]
    · simp [redisGet, redisSet, rvalSerialize, h1, h2]
  · constructor
    · simp [callToolCached, redisGet, h3]
    · simp [callToolCached, redisGet, redisSet, rvalSerialize, h3, h4, h5, h6,
        rvalTruthy]

/-- Claim C10 witness: the tool output `"[1, 2]"` comes back as the decoded
list on the second call. -/
theorem c10_get_set_decode_witness :
    (redisGet c10Loads (redisSet (fun _ => none) "k" (.str "[1, 2]")) "k"
        = some (.jsonv (.arr [.num 1, .num 2])) ∧
      redisGet c10Loads (redisSet (fun _ => none) "k" (.str "[1, 2]")) "k"
        ≠ some (.str "[1, 2]")) ∧
    ((callToolCached c10Loads id (fun _ => none) "git" "git_status" [] "[1, 2]").1
        = .str "[1, 2]" ∧
      (callToolCached c10Loads id
          (callToolCached c10Loads id (fun _ => none) "git" "git_status" [] "[1, 2]").2
          "git" "git_status" [] "other").1 = .jsonv (.arr [.num 1, .num 2])) :=
  c10_get_set_decode c10Loads id (fun _ => none) "k" "[1, 2]"
    (.arr [.num 1, .num 2]) "git" "git_status" [] "[1, 2]" "other"
    (.arr [.num 1, .num 2]) (by rfl) (by decide) (by rfl) (by rfl) (by rfl)
    (by decide)

/-! ### Canonical argument serialization (claim C8) -/

theorem insField_perm (p : String × JVal) (l : List (String × JVal)) :
    List.Perm (insField p l) (p :: l) := by
  induction l with
  | nil => exact List.Perm.refl _
  | cons q t ih =>
    by_cases h : p.1 ≤ q.1
    · simp [insField, h]
    · simp only [insField, if_neg h]
      exact (ih.cons q).trans (List.Perm.swap p q t)

theorem sortFields_perm (l : List (String × JVal)) : List.Perm (sortFields l) l := by
  induction l with
  | nil => exact List.Perm.refl _
  | cons p t ih =>
    exact (insField_perm p (sortFields t)).trans (ih.cons p)

theorem sortedKeys_insField (p : String × JVal) {l : List (String × JVal)}
    (h : SortedKeys l) : SortedKeys (insField p l) := by
  induction l with
  | nil => simp [insField, SortedKeys]
  | cons q t ih =>
    rcases List.pairwise_cons.mp h with ⟨hq, ht⟩
    by_cases hpq : p.1 ≤ q.1
    · simp only [insField, if_pos hpq]
      refine List.pairwise_cons.mpr ⟨?_, h⟩
      intro x hx
      rcases List.mem_cons.mp hx with rfl | hx
      · exact hpq
      · exact hpq.trans (hq x hx)
    · simp only [insField, if_neg hpq]
      refine List.pairwise_cons.mpr ⟨?_, ih ht⟩
      intro x hx
      have hx' : x ∈ p :: t := (insField_perm p t).subset hx
      rcases List.mem_cons.mp hx' with rfl | hx'
      · exact le_of_lt (not_le.mp hpq)
      · exact hq x hx'

theorem sortedKeys_sortFields (l : List (String × JVal)) :
    SortedKeys (sortFields l) := by
  induction l with
  | nil => simp [sortFields, SortedKeys]
  | cons p t ih => exact sortedKeys_insField p ih

theorem sorted_nodupkeys_perm_eq :
    ∀ {l₁ l₂ : List (String × JVal)}, SortedKeys l₁ → SortedKeys l₂ →
      (l₁.map Prod.fst).Nodup → List.Perm l₁ l₂ → l₁ = l₂ := by
  intro l₁
  induction l₁ with
  | nil =>
    intro l₂ _ _ _ hp
    exact (hp.symm.eq_nil).symm
  | cons a t₁ ih =>
    intro l₂ h₁ h₂ hnd hp
    cases l₂ with
    | nil => simp at hp
    | cons b t₂ =>
      have hab : a = b := by
        have hbmem : b ∈ a :: t₁ := hp.symm.subset (List.mem_cons_self b t₂)
        have hamem : a ∈ b :: t₂ := hp.subset (List.mem_cons_self a t₁)
        rcases List.mem_cons.mp hbmem with hb | hb
        · exact hb.symm
        · rcases List.mem_cons.mp hamem with ha | ha
          · exact ha
          · exfalso
            have h1b : a.1 ≤ b.1 := (List.pairwise_cons.mp h₁).1 b hb
            have h2a : b.1 ≤ a.1 := (List.pairwise_cons.mp h₂).1 a ha
            have hkey : a.1 = b.1 := le_antisymm h1b h2a
            have hmem : a.1 ∈ t₁.map Prod.fst := by
              rw [hkey]; exact List.mem_map_of_mem Prod.fst hb
            have hnd' : (a.1 :: t₁.map Prod.fst).Nodup := by simpa using hnd
            exact (List.nodup_cons.mp hnd').1 hmem
      subst hab
      have ht : t₁ = t₂ :=
        ih (List.pairwise_cons.mp h₁).2 (List.pairwise_cons.mp h₂).2
          (by simpa using (List.nodup_cons.mp (by simpa using hnd)).2)
          hp.cons_inv
      rw [ht]

/-- Claim C8: `call_tool` serializes the arguments key-sorted
(`json.dumps(arguments, sort_keys=True)`, mcp_client.py 116) before
hashing, so two argument mappings that are equal as mappings but listed in
different orders produce the same cache key for any deterministic digest
function. -/
theorem c8_canonical_cache_key (md5hex : String → String) (src n : String)
    (a₁ a₂ : List (String × JVal)) (hperm : List.Perm a₁ a₂)
    (hnd : (a₁.map Prod.fst).Nodup) :
    callToolCacheKey md5hex src n a₁ = callToolCacheKey md5hex src n a₂ := by
  have hkeys : ((sortFields a₁).map Prod.fst).Nodup :=
    (((sortFields_perm a₁).map Prod.fst).nodup_iff).mpr hnd
  have hsorted : sortFields a₁ = sortFields a₂ :=
    sorted_nodupkeys_perm_eq (sortedKeys_sortFields a₁)
      (sortedKeys_sortFields a₂) hkeys
      (((sortFields_perm a₁).trans hperm).trans (sortFields_perm a₂).symm)
  unfold callToolCacheKey dumpsSortedArgs
  rw [hsorted]

/-- Claim C8 witness: `CallTool(n, a=1, b=2)` and `CallTool(n, b=2, a=1)`
compute the same cache key. -/
theorem c8_canonical_cache_key_witness :
    callToolCacheKey id "git" "git_status"
        [("a", JVal.num 1), ("b", JVal.num 2)] =
      callToolCacheKey id "git" "git_status"
        [("b", JVal.num 2), ("a", JVal.num 1)] :=
  c8_canonical_cache_key id "git" "git_status"
    [("a", JVal.num 1), ("b", JVal.num 2)]
    [("b", JVal.num 2), ("a", JVal.num 1)]
    (List.Perm.swap ("b", JVal.num 2) ("a", JVal.num 1) [])
    (by decide)

/-! ### Structural lemmas about the agentic executor -/

theorem countP_agentToolBlock (exec : MToolCall → Except String String)
    (lbl : String) (tc : MToolCall) (p : AEv → Bool)
    (h1 : ∀ c, p (.chunk c) = false) (h2 : ∀ m, m.role = Role.tool → p (.addMsg m) = false)
    (h3 : ∀ nm, p (.toolRun nm) = false) :
    (agentToolBlock exec lbl tc).countP p = 0 := by
  simp [agentToolBlock, List.countP_cons, h1, h2, h3]

theorem countP_toolBlocks (exec : MToolCall → Except String String)
    (lbl : String) (calls : List MToolCall) (p : AEv → Bool)
    (hp : ∀ tc, (agentToolBlock exec lbl tc).countP p = 0) :
    ((calls.foldr (fun tc acc => agentToolBlock exec lbl tc ++ acc) []).countP p)
      = 0 := by
  induction calls with
  | nil => simp
  | cons tc t ih => simp [List.countP_append, hp, ih]

theorem agenticLoop_roundCall_le (inp : AgenticIn) :
    ∀ (n i step : Nat) (tools : List String),
      ((agenticLoop inp n i step tools).1.countP isRoundCallEv) ≤ n := by
  intro n
  induction n with
  | zero => intro i step tools; simp [agenticLoop]
  | succ n ih =>
    intro i step tools
    rw [agenticLoop]
    by_cases ht : (inp.rounds i).elapsed > agentTimeoutSec
    · simp [ht, isRoundCallEv]
    · have hblocks := countP_toolBlocks inp.execTool
        ("Step " ++ toString (min (step + 1) inp.plan.length) ++ "/" ++
          toString inp.plan.length)
        (agentFallback tools (inp.rounds i).raw (inp.rounds i).structuredCalls
          (inp.rounds i).parsed).2 isRoundCallEv
        (fun tc => countP_agentToolBlock _ _ tc _ (fun _ => rfl)
          (fun _ _ => rfl) (fun _ => rfl))
      by_cases hc : (agentFallback tools (inp.rounds i).raw
          (inp.rounds i).structuredCalls (inp.rounds i).parsed).2.isEmpty
      · simp [ht, hc, isRoundCallEv, List.countP_cons]
      · simp [ht, hc, isRoundCallEv, List.countP_cons, List.countP_append,
          hblocks]
        exact ih (i + 1) (step + 1) (inp.expandStep i tools)

theorem agenticLoop_timeout (inp : AgenticIn) :
    ∀ (n i step : Nat) (tools : List String) (j : Nat),
      (inp.rounds j).elapsed > agentTimeoutSec → i ≤ j →
      ((agenticLoop inp n i step tools).1.countP isRoundCallEv) ≤ j - i := by
  intro n
  induction n with
  | zero => intro i step tools j _ _; simp [agenticLoop]
  | succ n ih =>
    intro i step tools j hj hij
    rw [agenticLoop]
    by_cases ht : (inp.rounds i).elapsed > agentTimeoutSec
    · simp [ht, isRoundCallEv]
    · have hne : i ≠ j := by rintro rfl; exact ht hj
      have hij' : i + 1 ≤ j := Nat.lt_of_le_of_ne hij hne
      have hblocks := countP_toolBlocks inp.execTool
        ("Step " ++ toString (min (step + 1) inp.plan.length) ++ "/" ++
          toString inp.plan.length)
        (agentFallback tools (inp.rounds i).raw (inp.rounds i).structuredCalls
          (inp.rounds i).parsed).2 isRoundCallEv
        (fun tc => countP_agentToolBlock _ _ tc _ (fun _ => rfl)
          (fun _ _ => rfl) (fun _ => rfl))
      by_cases hc : (agentFallback tools (inp.rounds i).raw
          (inp.rounds i).structuredCalls (inp.rounds i).parsed).2.isEmpty
      · simp [ht, hc, isRoundCallEv, List.countP_cons]
        omega
      · simp [ht, hc, isRoundCallEv, List.countP_cons, List.countP_append,
          hblocks]
        have := ih (i + 1) (step + 1) (inp.expandStep i tools) j hj hij'
        omega

theorem agenticLoop_synth_zero (inp : AgenticIn) :
    ∀ (n i step : Nat) (tools : List String),
      ((agenticLoop inp n i step tools).1.countP isSynthEv) = 0 := by
  intro n
  induction n with
  | zero => intro i step tools; simp [agenticLoop]
  | succ n ih =>
    intro i step tools
    rw [agenticLoop]
    by_cases ht : (inp.rounds i).elapsed > agentTimeoutSec
    · simp [ht, isSynthEv]
    · have hblocks := countP_toolBlocks inp.execTool
        ("Step " ++ toString (min (step + 1) inp.plan.length) ++ "/" ++
          toString inp.plan.length)
        (agentFallback tools (inp.rounds i).raw (inp.rounds i).structuredCalls
          (inp.rounds i).parsed).2 isSynthEv
        (fun tc => countP_agentToolBlock _ _ tc _ (fun _ => rfl)
          (fun _ _ => rfl) (fun _ => rfl))
      by_cases hc : (agentFallback tools (inp.rounds i).raw
          (inp.rounds i).structuredCalls (inp.rounds i).parsed).2.isEmpty
      · simp [ht, hc, isSynthEv, List.countP_cons]
      · simp [ht, hc, isSynthEv, List.countP_cons, List.countP_append, hblocks]
        intro a ha
        have h0 := ih (i + 1) (step + 1) (inp.expandStep i tools)
        have h1 := List.countP_eq_zero.mp h0 a ha
        simpa [isSynthEv] using h1

theorem isAsstToolsEv_chunk (c : Chunk) :
    isAsstToolsEv (.chunk c) = false := rfl

theorem isAsstToolsEv_roundCall (t : List String) :
    isAsstToolsEv (.roundCall t) = false := rfl

theorem isAsstToolsEv_toolRun (nm : String) :
    isAsstToolsEv (.toolRun nm) = false := rfl

theorem isAsstToolsEv_synthCall : isAsstToolsEv .synthCall = false := rfl

theorem isAsstToolsEv_addMsg (m : Msg) :
    isAsstToolsEv (.addMsg m) = (m.role == Role.assistant && !m.toolCalls.isEmpty) := rfl

theorem isAsstToolsEv_nextGuidance (plan : List String) (step : Nat) :
    isAsstToolsEv (.addMsg (nextGuidance plan step)) = false := by
  by_cases h : step < plan.length
  · simp only [nextGuidance, if_pos h]; rfl
  · simp only [nextGuidance, if_neg h]; rfl

theorem nextGuidance_role (plan : List String) (step : Nat) :
    (nextGuidance plan step).role = Role.user := by
  by_cases h : step < plan.length
  · simp only [nextGuidance, if_pos h]
  · simp only [nextGuidance, if_neg h]

theorem agenticLoop_llm_count (inp : AgenticIn) :
    ∀ (n i step : Nat) (tools : List String),
      ((agenticLoop inp n i step tools).1.countP isLLMCallEv)
        = ((agenticLoop inp n i step tools).1.countP isAsstToolsEv)
          + (if (agenticLoop inp n i step tools).2 then 1 else 0) := by
  intro n
  induction n with
  | zero => intro i step tools; simp [agenticLoop]
  | succ n ih =>
    intro i step tools
    rw [agenticLoop]
    by_cases ht : (inp.rounds i).elapsed > agentTimeoutSec
    · simp [ht, isLLMCallEv, isRoundCallEv, isSynthEv, isAsstToolsEv]
    · have hblocksL := countP_toolBlocks inp.execTool
        ("Step " ++ toString (min (step + 1) inp.plan.length) ++ "/" ++
          toString inp.plan.length)
        (agentFallback tools (inp.rounds i).raw (inp.rounds i).structuredCalls
          (inp.rounds i).parsed).2 isLLMCallEv
        (fun tc => countP_agentToolBlock _ _ tc _ (fun _ => rfl)
          (fun _ _ => rfl) (fun _ => rfl))
      have hblocksA := countP_toolBlocks inp.execTool
        ("Step " ++ toString (min (step + 1) inp.plan.length) ++ "/" ++
          toString inp.plan.length)
        (agentFallback tools (inp.rounds i).raw (inp.rounds i).structuredCalls
          (inp.rounds i).parsed).2 isAsstToolsEv
        (fun tc => countP_agentToolBlock _ _ tc _ (fun _ => rfl)
          (fun m hm => by simp [isAsstToolsEv_addMsg, hm]) (fun _ => rfl))
      by_cases hc : (agentFallback tools (inp.rounds i).raw
          (inp.rounds i).structuredCalls (inp.rounds i).parsed).2.isEmpty
      · simp [ht, hc, isLLMCallEv, isRoundCallEv, isSynthEv, isAsstToolsEv_chunk,
          isAsstToolsEv_addMsg, isAsstToolsEv_roundCall, List.countP_cons]
      · simp [ht, hc, isLLMCallEv, isRoundCallEv, isSynthEv, isAsstToolsEv_chunk,
          isAsstToolsEv_addMsg, isAsstToolsEv_roundCall,
          List.countP_cons, List.countP_append, hblocksL, hblocksA,
          isAsstToolsEv_nextGuidance, nextGuidance_role]
        have := ih (i + 1) (step + 1) (inp.expandStep i tools)
        omega

theorem countP_agenticPreamble (inp : AgenticIn) (p : AEv → Bool)
    (h1 : ∀ c, p (.chunk c) = false)
    (h2 : p (.addMsg (agenticSysMsg inp)) = false)
    (h3 : p (.addMsg (agenticGuid0 inp)) = false) :
    (agenticPreamble inp).countP p = 0 := by
  simp [agenticPreamble, List.countP_cons, h1, h2, h3]

/-- Claim C3: the agentic executor performs at most `MAX_AGENT_ROUNDS = 8`
ReAct rounds; no new round is started once a round begins with more than
`AGENT_TIMEOUT_SEC = 300` seconds elapsed (so if round `i` observes a
timeout, at most `i` rounds ever ran); when the loop ends by round cap or
timeout (`fin = false`) exactly one forced synthesis call — made with
`tools=None` (the `synthCall` event) — follows, and the stream ends
immediately after its terminal chunk; when the model produced a final
answer inside the loop, no forced synthesis call happens. -/
theorem c3_agentic_bounds (inp : AgenticIn) (_hplan : inp.plan ≠ []) :
    ((agenticExec inp).1.countP isRoundCallEv ≤ maxAgentRounds) ∧
    (∀ i, (inp.rounds i).elapsed > agentTimeoutSec →
      (agenticExec inp).1.countP isRoundCallEv ≤ i) ∧
    ((agenticExec inp).1.countP isSynthEv
      = (if (agenticExec inp).2 then 0 else 1)) ∧
    ((agenticExec inp).2 = false →
      ∃ pre, (agenticExec inp).1
          = pre ++ [AEv.synthCall, AEv.chunk (doneChunk inp.synthText inp.synthUsage)]
        ∧ ∀ e ∈ pre, isSynthEv e = false) := by
  have hround := agenticLoop_roundCall_le inp maxAgentRounds 0 0 inp.toolNames
  have hsynth := agenticLoop_synth_zero inp maxAgentRounds 0 0 inp.toolNames
  have hpre0 : (agenticPreamble inp).countP isRoundCallEv = 0 :=
    countP_agenticPreamble inp isRoundCallEv (fun _ => rfl) rfl rfl
  have hpre1 : (agenticPreamble inp).countP isSynthEv = 0 :=
    countP_agenticPreamble inp isSynthEv (fun _ => rfl) rfl rfl
  by_cases hfin : (agenticLoop inp maxAgentRounds 0 0 inp.toolNames).2 = true
  · refine ⟨?_, ?_, ?_, ?_⟩
    · simpa [agenticExec, hfin, List.countP_append, hpre0] using hround
    · intro i hi
      have := agenticLoop_timeout inp maxAgentRounds 0 0 inp.toolNames i hi
        (Nat.zero_le i)
      simpa [agenticExec, hfin, List.countP_append, hpre0] using this
    · simpa [agenticExec, hfin, List.countP_append, hpre1] using hsynth
    · intro h
      simp [agenticExec, hfin] at h
  · have hfin' : (agenticLoop inp maxAgentRounds 0 0 inp.toolNames).2 = false := by
      simpa using hfin
    refine ⟨?_, ?_, ?_, ?_⟩
    · simpa [agenticExec, hfin', List.countP_append, List.countP_cons, hpre0,
        isRoundCallEv] using hround
    · intro i hi
      have := agenticLoop_timeout inp maxAgentRounds 0 0 inp.toolNames i hi
        (Nat.zero_le i)
      simpa [agenticExec, hfin', List.countP_append, List.countP_cons, hpre0,
        isRoundCallEv] using this
    · simpa [agenticExec, hfin', List.countP_append, List.countP_cons, hpre1,
        isSynthEv] using hsynth
    · intro _
      refine ⟨agenticPreamble inp ++ (agenticLoop inp maxAgentRounds 0 0 inp.toolNames).1
          ++ [AEv.chunk (statusChunk "🧠 Generating final answer...")], ?_, ?_⟩
      · simp [agenticExec, hfin', List.append_assoc]
      · intro e he
        rcases List.mem_append.mp he with h1 | h2
        · rcases List.mem_append.mp h1 with h3 | h4
          · have := List.countP_eq_zero.mp hpre1 e h3
            simpa using this
          · have := List.countP_eq_zero.mp hsynth e h4
            simpa using this
        · rw [List.mem_singleton] at h2
          rw [h2]; rfl

/-- The agentic executor always makes exactly one more LLM stream call than
it executes tool rounds: after every round that ran tools another LLM call
(the next round or the forced synthesis) still occurs, and the last LLM
call is the one whose output ends the stream. -/
theorem agenticExec_llm_count (inp : AgenticIn) :
    (agenticExec inp).1.countP isLLMCallEv
      = (agenticExec inp).1.countP isAsstToolsEv + 1 := by
  have h := agenticLoop_llm_count inp maxAgentRounds 0 0 inp.toolNames
  have hpreL : (agenticPreamble inp).countP isLLMCallEv = 0 :=
    countP_agenticPreamble inp _ (fun _ => rfl) rfl rfl
  have hpreA : (agenticPreamble inp).countP isAsstToolsEv = 0 :=
    countP_agenticPreamble inp _ (fun _ => rfl) rfl rfl
  by_cases hfin : (agenticLoop inp maxAgentRounds 0 0 inp.toolNames).2 = true
  · have h' := h
    simp [hfin] at h'
    simpa [agenticExec, hfin, List.countP_append, hpreL, hpreA] using h'
  · have hfin' : (agenticLoop inp maxAgentRounds 0 0 inp.toolNames).2 = false := by
      simpa using hfin
    have h' := h
    simp [hfin'] at h'
    simp [agenticExec, hfin', List.countP_append, List.countP_cons, hpreL, hpreA,
      isLLMCallEv, isRoundCallEv, isSynthEv, isAsstToolsEv_chunk,
      isAsstToolsEv_synthCall]
    omega

/-- Claim C2 (amended): for every tool invocation that raises, both
executors append a role=tool message carrying the matching `tool_call_id`
and continue the turn with a subsequent LLM round, and the chunks emitted
around tool execution are plain `done=false` status chunks (no error chunk,
no termination) — but the message wording differs: the agentic executor
uses the exact prefix `Error executing <name>:` while the orchestrator's
one-shot path uses `Error executing tool <name>:`. -/
theorem c2_tool_error_recovery (sinp : SimpleInput) (tc tc₂ : MToolCall)
    (e e₂ lbl : String) (ainp : AgenticIn)
    (h1 : tc ∈ simpleRecoveredCalls sinp)
    (h2 : sinp.execTool tc = .error e)
    (h3 : ainp.execTool tc₂ = .error e₂) :
    (Msg.mk Role.tool ("Error executing tool " ++ tc.fname ++ ": " ++ e) []
        (some tc.id) ∈ (runSimple sinp).2) ∧
    ((runSimple sinp).1
      = simpleYield1 sinp ++ simpleStatusChunks sinp ++ sinp.stream2) ∧
    (∀ c ∈ simpleStatusChunks sinp, c.done = false ∧ c.content = "") ∧
    (agentToolBlock ainp.execTool lbl tc₂
      = [ .chunk (statusChunk ("📋 " ++ lbl ++ ": Calling " ++ tc₂.fname ++ "...")),
          .toolRun tc₂.fname,
          .addMsg ⟨Role.tool, "Error executing " ++ tc₂.fname ++ ": " ++ e₂, [],
            some tc₂.id⟩,
          .chunk (statusChunk ("📋 " ++ lbl ++ ": " ++ tc₂.fname ++ " ✅")) ]) ∧
    ((agenticExec ainp).1.countP isLLMCallEv
      = (agenticExec ainp).1.countP isAsstToolsEv + 1) := by
  have hnil : simpleRecoveredCalls sinp ≠ [] := List.ne_nil_of_mem h1
  have hne : (simpleRecoveredCalls sinp).isEmpty = false := by
    simpa [List.isEmpty_iff] using hnil
  have hres : simpleToolResult sinp.execTool tc
      = "Error executing tool " ++ tc.fname ++ ": " ++ e := by
    simp [simpleToolResult, h2]
  refine ⟨?_, ?_, ?_, ?_, agenticExec_llm_count ainp⟩
  · have hmem : (⟨Role.tool, simpleToolResult sinp.execTool tc, [], some tc.id⟩ : Msg)
        ∈ simpleToolMsgs sinp := List.mem_map_of_mem _ h1
    rw [← hres]
    simp [runSimple, hne]
    exact hmem
  · simp [runSimple, hne]
  · intro c hc
    rcases List.mem_map.mp hc with ⟨tc', _, rfl⟩
    exact ⟨rfl, rfl⟩
  · simp [agentToolBlock, agentToolResult, h3]

/-- Claim C2 witness: the recovery path at a concrete timed-out
`git_status` call in both executors. -/
theorem c2_tool_error_recovery_witness :
    (Msg.mk Role.tool
        ("Error executing tool " ++ "git_status" ++ ": " ++
          "TimeoutError: tool call timed out") []
        (some "call-1") ∈ (runSimple c2SInput).2) ∧
    ((runSimple c2SInput).1
      = simpleYield1 c2SInput ++ simpleStatusChunks c2SInput ++ c2SInput.stream2) ∧
    (∀ c ∈ simpleStatusChunks c2SInput, c.done = false ∧ c.content = "") ∧
    (agentToolBlock c2AInput.execTool "Step 1/2" ⟨"call-2", "git_status"⟩
      = [ .chunk (statusChunk ("📋 " ++ "Step 1/2" ++ ": Calling " ++ "git_status" ++ "...")),
          .toolRun "git_status",
          .addMsg ⟨Role.tool, "Error executing " ++ "git_status" ++ ": " ++ "boom", [],
            some "call-2"⟩,
          .chunk (statusChunk ("📋 " ++ "Step 1/2" ++ ": " ++ "git_status" ++ " ✅")) ]) ∧
    ((agenticExec c2AInput).1.countP isLLMCallEv
      = (agenticExec c2AInput).1.countP isAsstToolsEv + 1) :=
  c2_tool_error_recovery c2SInput ⟨"call-1", "git_status"⟩
    ⟨"call-2", "git_status"⟩ "TimeoutError: tool call timed out" "boom"
    "Step 1/2" c2AInput (by decide) (by rfl) (by rfl)

/-- Claim C3 witness: the bounds at a concrete input that times out at
round 0. -/
theorem c3_agentic_bounds_witness :
    ((agenticExec c3Input).1.countP isRoundCallEv ≤ maxAgentRounds) ∧
    (∀ i, (c3Input.rounds i).elapsed > agentTimeoutSec →
      (agenticExec c3Input).1.countP isRoundCallEv ≤ i) ∧
    ((agenticExec c3Input).1.countP isSynthEv
      = (if (agenticExec c3Input).2 then 0 else 1)) ∧
    ((agenticExec c3Input).2 = false →
      ∃ pre, (agenticExec c3Input).1
          = pre ++ [AEv.synthCall,
              AEv.chunk (doneChunk c3Input.synthText c3Input.synthUsage)]
        ∧ ∀ e ∈ pre, isSynthEv e = false) :=
  c3_agentic_bounds c3Input (by decide)

/-- Claim C5 (amended): in the agentic executor, when tool calls are
recovered only by the text parser (`agentFallback` with no structured
calls, tools attached and a non-empty parse), the accumulated raw text is
cleared — the appended assistant-with-tool-calls message gets empty content
— and the round's tool-execution events emit only empty-content status
chunks, so the raw text is never delivered to the caller; in the one-shot
orchestrator path this does not hold (see the counterexample): the raw text
is streamed to the caller and persisted as the assistant message content. -/
theorem c5_agentic_clears_parsed_text (tools : List String) (raw : String)
    (l : List MToolCall) (exec : MToolCall → Except String String)
    (lbl : String) (tc : MToolCall)
    (h1 : tools ≠ []) (h2 : l ≠ []) :
    agentFallback tools raw [] (some l) = ("", l) ∧
    (∀ c, AEv.chunk c ∈ agentToolBlock exec lbl tc → c.content = "") := by
  constructor
  · have ht : tools.isEmpty = false := by simpa [List.isEmpty_iff] using h1
    have hl : l.isEmpty = false := by simpa [List.isEmpty_iff] using h2
    simp [agentFallback, ht, hl]
  · intro c hc
    simp only [agentToolBlock, List.mem_cons, List.mem_singleton] at hc
    rcases hc with h | h | h | h | h
    · injection h with h'; rw [h']; rfl
    · simp at h
    · simp at h
    · injection h with h'; rw [h']; rfl
    · simp at h

/-- Claim C5 witness: the fallback at a concrete recovered call. -/
theorem c5_agentic_clears_parsed_text_witness :
    agentFallback ["git_status"] c5RawText [] (some [⟨"parsed-5", "git_status"⟩])
      = ("", [⟨"parsed-5", "git_status"⟩]) ∧
    (∀ c, AEv.chunk c ∈ agentToolBlock (fun _ => Except.ok "clean") "Step 1/1"
        ⟨"parsed-5", "git_status"⟩ → c.content = "") :=
  c5_agentic_clears_parsed_text ["git_status"] c5RawText
    [⟨"parsed-5", "git_status"⟩] (fun _ => Except.ok "clean") "Step 1/1"
    ⟨"parsed-5", "git_status"⟩ (by decide) (by decide)

/-! ### Lemmas about the classifier scan (claim C7) -/

theorem insLen_perm (x : List Char) (l : List (List Char)) :
    List.Perm (insLen x l) (x :: l) := by
  induction l with
  | nil => exact List.Perm.refl _
  | cons y t ih =>
    by_cases h : y.length < x.length
    · simp [insLen, h]
    · simp only [insLen, if_neg h]
      exact (ih.cons y).trans (List.Perm.swap x y t)

theorem descLen_insLen (x : List Char) {l : List (List Char)}
    (h : DescLen l) : DescLen (insLen x l) := by
  induction l with
  | nil => simp [insLen, DescLen]
  | cons y t ih =>
    rcases List.pairwise_cons.mp h with ⟨hy, ht⟩
    by_cases hxy : y.length < x.length
    · simp only [insLen, if_pos hxy]
      refine List.pairwise_cons.mpr ⟨?_, h⟩
      intro z hz
      rcases List.mem_cons.mp hz with rfl | hz
      · exact le_of_lt hxy
      · exact (hy z hz).trans (le_of_lt hxy)
    · simp only [insLen, if_neg hxy]
      refine List.pairwise_cons.mpr ⟨?_, ih ht⟩
      intro z hz
      have hz' : z ∈ x :: t := (insLen_perm x t).subset hz
      rcases List.mem_cons.mp hz' with rfl | hz'
      · exact not_lt.mp hxy
      · exact hy z hz'

theorem descLen_sortLenDesc (l : List (List Char)) : DescLen (sortLenDesc l) := by
  induction l with
  | nil => simp [sortLenDesc, DescLen]
  | cons x t ih => exact descLen_insLen x ih

theorem sortLenDesc_perm (l : List (List Char)) :
    List.Perm (sortLenDesc l) l := by
  induction l with
  | nil => exact List.Perm.refl _
  | cons x t ih => exact (insLen_perm x (sortLenDesc t)).trans (ih.cons x)

theorem find?_max_of_descLen :
    ∀ {l : List (List Char)} {p : List Char → Bool} {v : List Char},
      DescLen l → l.find? p = some v →
      p v = true ∧ v ∈ l ∧ ∀ w ∈ l, p w = true → w.length ≤ v.length := by
  intro l
  induction l with
  | nil => intro p v _ h; simp [List.find?] at h
  | cons a t ih =>
    intro p v hd hf
    rcases List.pairwise_cons.mp hd with ⟨ha, ht⟩
    by_cases hpa : p a = true
    · rw [List.find?_cons_of_pos _ hpa] at hf
      injection hf with hf
      subst hf
      refine ⟨hpa, List.mem_cons_self a t, ?_⟩
      intro w hw _
      rcases List.mem_cons.mp hw with rfl | hw
      · exact le_refl _
      · exact ha w hw
    · rw [List.find?_cons_of_neg _ hpa] at hf
      obtain ⟨hp, hmem, hmax⟩ := ih ht hf
      refine ⟨hp, List.mem_cons_of_mem a hmem, ?_⟩
      intro w hw hwl
      rcases List.mem_cons.mp hw with rfl | hw
      · exact absurd hwl hpa
      · exact hmax w hw hwl

/-- The length-descending substring scan of agentic_engine.py 145-148
returns a match of maximal length among the candidates contained in the
line — `FILESYSTEM` is preferred over its substring `FILE`. -/
theorem firstMatch_spec (valid : List (List Char)) (line v : List Char)
    (h : firstMatch (sortLenDesc valid) line = some v) :
    v ∈ valid ∧ infixB v line = true ∧
      ∀ w ∈ valid, infixB w line = true → w.length ≤ v.length := by
  obtain ⟨hp, hmem, hmax⟩ := find?_max_of_descLen (descLen_sortLenDesc valid) h
  exact ⟨(sortLenDesc_perm valid).subset hmem, hp,
    fun w hw hwl => hmax w ((sortLenDesc_perm valid).symm.subset hw) hwl⟩

theorem dropWhile_ws_append {ws l : List Char} (h : ∀ c ∈ ws, isWS c = true) :
    (ws ++ l).dropWhile isWS = l.dropWhile isWS := by
  induction ws with
  | nil => simp
  | cons c t ih =>
    simp [List.dropWhile_cons, h c (List.mem_cons_self c t),
      ih (fun x hx => h x (List.mem_cons_of_mem c hx))]

theorem stripL_ws_append {ws l : List Char} (h : ∀ c ∈ ws, isWS c = true) :
    stripL (ws ++ l) = stripL l :=
  dropWhile_ws_append h

theorem stripL_append_ws {l ws : List Char} (h : ∀ c ∈ ws, isWS c = true) :
    stripL (l ++ ws) = if (stripL l).isEmpty then [] else stripL l ++ ws := by
  induction l with
  | nil =>
    have h0 : stripL (ws ++ []) = stripL [] := stripL_ws_append h
    rw [List.append_nil] at h0
    rw [List.nil_append, h0]
    simp [stripL]
  | cons c t ih =>
    by_cases hc : isWS c = true
    · simp only [stripL, List.cons_append, List.dropWhile_cons, hc, if_true] at ih ⊢
      exact ih
    · simp [stripL, List.dropWhile_cons, hc]

theorem stripR_append_ws {l ws : List Char} (h : ∀ c ∈ ws, isWS c = true) :
    stripR (l ++ ws) = stripR l := by
  unfold stripR
  rw [List.reverse_append,
    dropWhile_ws_append (fun c hc => h c (List.mem_reverse.mp hc))]

theorem pyStrip_pad {ws₁ ws₂ raw : List Char}
    (h₁ : ∀ c ∈ ws₁, isWS c = true) (h₂ : ∀ c ∈ ws₂, isWS c = true) :
    pyStrip (ws₁ ++ raw ++ ws₂) = pyStrip raw := by
  unfold pyStrip
  rw [List.append_assoc, stripL_ws_append h₁, stripL_append_ws h₂]
  by_cases he : (stripL raw).isEmpty
  · rw [if_pos he, List.isEmpty_iff.mp he]
  · rw [if_neg he, stripR_append_ws h₂]

theorem dropWhile_ws_map {f : Char → Char} (hf : ∀ c, isWS (f c) = isWS c)
    (l : List Char) :
    (l.map f).dropWhile isWS = (l.dropWhile isWS).map f := by
  induction l with
  | nil => rfl
  | cons c t ih =>
    by_cases hc : isWS c = true
    · simp [List.dropWhile_cons, hf, hc, ih]
    · simp [List.dropWhile_cons, hf, hc]

theorem stripR_map {f : Char → Char} (hf : ∀ c, isWS (f c) = isWS c)
    (l : List Char) : stripR (l.map f) = (stripR l).map f := by
  unfold stripR
  rw [← List.map_reverse, dropWhile_ws_map hf, List.map_reverse]

theorem pyStrip_map {f : Char → Char} (hf : ∀ c, isWS (f c) = isWS c)
    (l : List Char) : pyStrip (l.map f) = (pyStrip l).map f := by
  unfold pyStrip stripL
  rw [dropWhile_ws_map hf, stripR_map hf]

theorem upperL_map {f : Char → Char}
    (hf : ∀ c, Char.toUpper (f c) = Char.toUpper c) (l : List Char) :
    upperL (l.map f) = upperL l := by
  unfold upperL
  rw [List.map_map]
  exact List.map_congr_left (fun a _ => hf a)

theorem intentOf_default (valid : List (List Char)) :
    ∀ lines : List (List Char),
      (∀ ln ∈ lines, cleanLine ln ∉ valid ∧
        firstMatch (sortLenDesc valid) (cleanLine ln) = none) →
      intentOf valid lines = generalTok := by
  intro lines
  induction lines with
  | nil => intro _; rfl
  | cons ln rest ih =>
    intro h
    obtain ⟨h1, h2⟩ := h ln (List.mem_cons_self ln rest)
    simp only [intentOf, if_neg h1, h2]
    exact ih (fun x hx => h x (List.mem_cons_of_mem ln hx))

theorem complexityFold :
    ∀ (lines : List (List Char)) (acc : List Char),
      (lines.foldl
          (fun acc line => if complexLineHit line then complexTok else acc) acc
        = complexTok
        ↔ (acc = complexTok ∨ lines.any complexLineHit = true)) := by
  intro lines
  induction lines with
  | nil => intro acc; simp
  | cons ln rest ih =>
    intro acc
    by_cases h : complexLineHit ln = true
    · simp [List.foldl_cons, h, ih]
    · simp [List.foldl_cons, h, ih]

theorem complexityOf_iff (lines : List (List Char)) :
    complexityOf lines = complexTok ↔ lines.any complexLineHit = true := by
  unfold complexityOf
  rw [complexityFold]
  have hne : simpleTok ≠ complexTok := by decide
  simp [hne]

/-- Claim C7: the classifier parsing of
`AgenticEngine.classify_intent_and_complexity` — (i) the substring scan
prefers longer category names (it returns a contained candidate of maximal
length); (ii) when no line matches any candidate the intent is `GENERAL`;
(iii) the result is `COMPLEX` iff some line contains `COMPLEXITY` with
`COMPLEX` somewhere after the first occurrence of that key, else `SIMPLE`;
(iv) the parsed pair is unchanged under leading/trailing whitespace and
under per-character case changes of the response text. -/
theorem c7_classifier_parsing (valid : List (List Char))
    (raw ws₁ ws₂ : List Char) (f : Char → Char) (line v w : List Char)
    (hws₁ : ∀ c ∈ ws₁, isWS c = true) (hws₂ : ∀ c ∈ ws₂, isWS c = true)
    (hf₁ : ∀ c, Char.toUpper (f c) = Char.toUpper c)
    (hf₂ : ∀ c, isWS (f c) = isWS c)
    (hv : firstMatch (sortLenDesc valid) line = some v)
    (hw : w ∈ valid) (hwin : infixB w line = true)
    (hdef : ∀ ln ∈ splitLines (upperL (pyStrip raw)),
      cleanLine ln ∉ valid ∧
        firstMatch (sortLenDesc valid) (cleanLine ln) = none) :
    (v ∈ valid ∧ infixB v line = true ∧ w.length ≤ v.length) ∧
    (classifyParse valid raw).1 = generalTok ∧
    ((classifyParse valid raw).2 = complexTok ↔
      (splitLines (upperL (pyStrip raw))).any complexLineHit = true) ∧
    classifyParse valid (ws₁ ++ raw ++ ws₂) = classifyParse valid raw ∧
    classifyParse valid (raw.map f) = classifyParse valid raw := by
  obtain ⟨hv1, hv2, hv3⟩ := firstMatch_spec valid line v hv
  refine ⟨⟨hv1, hv2, hv3 w hw hwin⟩, ?_, ?_, ?_, ?_⟩
  · exact intentOf_default valid _ hdef
  · exact complexityOf_iff _
  · unfold classifyParse
    rw [pyStrip_pad hws₁ hws₂]
  · unfold classifyParse
    rw [pyStrip_map hf₂, upperL_map hf₁]

/-- Claim C7 witness: the scan prefers `FILESYSTEM` over `FILE` on a
concrete line; a response with no category line parses to `GENERAL`; its
complexity scan matches the iff; and padding/case-changing the response
leaves the parse unchanged. -/
theorem c7_classifier_parsing_witness :
    ("FILESYSTEM".toList ∈ c7Valid ∧
      infixB "FILESYSTEM".toList "USE THE FILESYSTEM".toList = true ∧
      "FILE".toList.length ≤ "FILESYSTEM".toList.length) ∧
    (classifyParse c7Valid c7Raw).1 = generalTok ∧
    ((classifyParse c7Valid c7Raw).2 = complexTok ↔
      (splitLines (upperL (pyStrip c7Raw))).any complexLineHit = true) ∧
    classifyParse c7Valid ("  ".toList ++ c7Raw ++ "\n ".toList)
      = classifyParse c7Valid c7Raw ∧
    classifyParse c7Valid (c7Raw.map c7CaseFlip) = classifyParse c7Valid c7Raw :=
  c7_classifier_parsing c7Valid c7Raw "  ".toList "\n ".toList c7CaseFlip
    "USE THE FILESYSTEM".toList "FILESYSTEM".toList "FILE".toList
    (by decide) (by decide)
    (fun c => by
      by_cases h : c = 'a'
      · subst h; decide
      · simp [c7CaseFlip, h])
    (fun c => by
      by_cases h : c = 'a'
      · subst h; decide
      · simp [c7CaseFlip, h])
    (by decide) (by decide) (by decide) (by decide)

end ChatbotAI
